import Mathlib

/-!
Verification of the shift-state synchronization protocol of the ShiftSync
repository.

The client side (the `ClientProjection`, realised by the `ws.onmessage`
reducer and the rendering logic of `src/frontend/src/pages/Dashboard.tsx`,
together with the `Shift` interface of the types module) is embedded
directly from the source.  The server side (ShiftStore, RequestArbiter,
BroadcastHub) is not part of the repository's sources; where a claim is
decided by it, the component is modelled from the specification and marked
as such in its doc comment.
-/

namespace ShiftSync

/-- The client-side `Shift` record.  From the `Shift` interface of the types
module (`_id?: string`, `title`, `start_time`, `end_time`,
`assigned_employees: string[]`, `drop_requests?: string[]`) together with the
field `pending_employees` that `Dashboard.tsx` reads with optional chaining;
at runtime each membership field is either an array of usernames or absent,
so each is embedded as an `Option (List String)`. -/
structure Shift where
  id : Option String
  title : String
  start_time : String
  end_time : String
  assigned_employees : Option (List String)
  pending_employees : Option (List String)
  drop_requests : Option (List String)
deriving DecidableEq, Repr

/-- The wire messages of the push channel, as dispatched on by
`ws.onmessage` in `Dashboard.tsx`: `{action: "NEW_SHIFT" | "UPDATE_SHIFT" |
"DELETE_SHIFT", shift | shift_id}`. -/
inductive ChangeEvent where
  | NEW_SHIFT (shift : Shift)
  | UPDATE_SHIFT (shift : Shift)
  | DELETE_SHIFT (shift_id : String)
deriving DecidableEq, Repr

/-- The `ws.onmessage` reducer of `Dashboard.tsx` (lines 40-52), acting on
the `shifts` state:
`NEW_SHIFT`: `setShifts(prev => [...prev, payload.shift])`;
`UPDATE_SHIFT`: `setShifts(prev => prev.map(s => s._id === payload.shift._id ? payload.shift : s))`;
`DELETE_SHIFT`: `setShifts(prev => prev.filter(s => s._id !== payload.shift_id))`. -/
def applyEvent (prev : List Shift) (e : ChangeEvent) : List Shift :=
  match e with
  | .NEW_SHIFT sh => prev ++ [sh]
  | .UPDATE_SHIFT sh => prev.map (fun s => if s.id = sh.id then sh else s)
  | .DELETE_SHIFT d => prev.filter (fun s => s.id ≠ some d)

/-- A concrete shift used in counterexamples and witnesses. -/
def sh0 : Shift :=
  { id := some "s1", title := "Morning", start_time := "2026-01-01T09:00",
    end_time := "2026-01-01T17:00", assigned_employees := some [],
    pending_employees := none, drop_requests := none }

/-- A second concrete shift, with a different id. -/
def sh1 : Shift :=
  { id := some "s2", title := "Evening", start_time := "2026-01-01T17:00",
    end_time := "2026-01-02T01:00", assigned_employees := some ["alice"],
    pending_employees := none, drop_requests := none }

/-- A concrete shift with every membership field absent, as a record from a
backend whose schema (the `Shift` interface) omits `pending_employees`
entirely and marks `drop_requests` optional. -/
def shNoFields : Shift :=
  { id := some "s3", title := "Night", start_time := "2026-01-02T01:00",
    end_time := "2026-01-02T09:00", assigned_employees := none,
    pending_employees := none, drop_requests := none }

/-- Membership check of the dashboard, embedding the JavaScript optional
chaining `field?.includes(u)`: an absent array yields `undefined`, which is
falsy where the dashboard branches on it. -/
def memberOf (field : Option (List String)) (u : String) : Bool :=
  match field with
  | none => false
  | some l => l.contains u

/-- `const isAssignedToMe = shift.assigned_employees?.includes(username)`
(`Dashboard.tsx` line 224). -/
def isAssignedToMe (sh : Shift) (u : String) : Bool :=
  memberOf sh.assigned_employees u

/-- `const isPendingForMe = shift.pending_employees?.includes(username)`
(`Dashboard.tsx` line 225). -/
def isPendingForMe (sh : Shift) (u : String) : Bool :=
  memberOf sh.pending_employees u

/-- `const isDropRequested = shift.drop_requests?.includes(username)`
(`Dashboard.tsx` line 226). -/
def isDropRequested (sh : Shift) (u : String) : Bool :=
  memberOf sh.drop_requests u

/-- The contextual button the dashboard offers to an employee. -/
inductive EmployeeButton where
  | dropPendingApproval
  | requestToDrop
  | cancelClaimRequest
  | requestShift
deriving DecidableEq, Repr

/-- The employee-view branch of `Dashboard.tsx` (lines 290-303): drop
requested shows the disabled drop-pending button; otherwise assigned offers
request-to-drop; otherwise pending offers cancel-claim; otherwise the
request-shift (request-claim) button. -/
def employeeButton (sh : Shift) (u : String) : EmployeeButton :=
  if isDropRequested sh u then .dropPendingApproval
  else if isAssignedToMe sh u then .requestToDrop
  else if isPendingForMe sh u then .cancelClaimRequest
  else .requestShift

/-- The connection-setup actions of the Dashboard `useEffect`. -/
inductive SetupStep where
  | fetchSnapshot
  | subscribeHub
deriving DecidableEq, Repr

/-- Program order of connection setup in the Dashboard `useEffect`
(lines 24-61): first `axios.get('http://localhost:8000/shifts/')` issues the
snapshot fetch (line 31), and only afterwards
`new WebSocket('ws://localhost:8000/ws')` opens the push channel (line 34). -/
def connectionSetup : List SetupStep :=
  [SetupStep.fetchSnapshot, SetupStep.subscribeHub]

/-- The snapshot response handler `then(res => setShifts(res.data))`
(line 31): the fetched collection replaces the projection wholesale. -/
def applySnapshot (_prev snapshot : List Shift) : List Shift :=
  snapshot

/-- Modelled from the spec: the membership sets of one shift as held by the
ShiftStore (the backend that implements ShiftStore and RequestArbiter is not
under `src/`).  `assigned_employees`, `pending_employees` and
`drop_requests` are sets of user identifiers, order-insensitive. -/
structure ShiftState where
  assigned : Finset String
  pending : Finset String
  dropReqs : Finset String
deriving DecidableEq

/-- Modelled from the spec: a user's role, `manager` or `employee`. -/
inductive Role where
  | manager
  | employee
deriving DecidableEq, Repr

/-- Modelled from the spec: the actions of the RequestArbiter's transition
table. -/
inductive Action where
  | requestClaim
  | cancelClaim
  | approveClaim
  | denyClaim
  | requestDrop
  | approveDrop
  | denyDrop
deriving DecidableEq, Repr

/-- Modelled from the spec: the outcome the RequestArbiter signals —
either the shift's new membership state, or a validation error
(`InvalidTransition` for a membership-state precondition violation,
`Forbidden` for a role mismatch). -/
inductive ArbiterResult where
  | ok (next : ShiftState)
  | invalidTransition
  | forbidden
deriving DecidableEq

/-- Modelled from the spec: the role gate of the transition table —
`request-claim`, `cancel-claim` and `request-drop` are employee actions on
the actor's own membership; `approve-claim`, `deny-claim`, `approve-drop`
and `deny-drop` are manager actions. -/
def roleOk (role : Role) (actor u : String) (a : Action) : Prop :=
  match a with
  | .requestClaim => role = Role.employee ∧ actor = u
  | .cancelClaim => role = Role.employee ∧ actor = u
  | .requestDrop => role = Role.employee ∧ actor = u
  | .approveClaim => role = Role.manager
  | .denyClaim => role = Role.manager
  | .approveDrop => role = Role.manager
  | .denyDrop => role = Role.manager

instance (role : Role) (actor u : String) (a : Action) : Decidable (roleOk role actor u a) :=
  match a with
  | .requestClaim => inferInstanceAs (Decidable (role = Role.employee ∧ actor = u))
  | .cancelClaim => inferInstanceAs (Decidable (role = Role.employee ∧ actor = u))
  | .requestDrop => inferInstanceAs (Decidable (role = Role.employee ∧ actor = u))
  | .approveClaim => inferInstanceAs (Decidable (role = Role.manager))
  | .denyClaim => inferInstanceAs (Decidable (role = Role.manager))
  | .approveDrop => inferInstanceAs (Decidable (role = Role.manager))
  | .denyDrop => inferInstanceAs (Decidable (role = Role.manager))

/-- Modelled from the spec: the membership-state precondition of each row of
the transition table (`request-claim` requires the user in no set;
`cancel-claim`, `approve-claim` and `deny-claim` require the user pending;
`request-drop` requires the user assigned; `approve-drop` and `deny-drop`
require the user in the drop requests). -/
def precond (u : String) (a : Action) (s : ShiftState) : Prop :=
  match a with
  | .requestClaim => u ∉ s.assigned ∧ u ∉ s.pending ∧ u ∉ s.dropReqs
  | .cancelClaim => u ∈ s.pending
  | .approveClaim => u ∈ s.pending
  | .denyClaim => u ∈ s.pending
  | .requestDrop => u ∈ s.assigned
  | .approveDrop => u ∈ s.dropReqs
  | .denyDrop => u ∈ s.dropReqs

instance (u : String) (a : Action) (s : ShiftState) : Decidable (precond u a s) :=
  match a with
  | .requestClaim =>
      inferInstanceAs (Decidable (u ∉ s.assigned ∧ u ∉ s.pending ∧ u ∉ s.dropReqs))
  | .cancelClaim => inferInstanceAs (Decidable (u ∈ s.pending))
  | .approveClaim => inferInstanceAs (Decidable (u ∈ s.pending))
  | .denyClaim => inferInstanceAs (Decidable (u ∈ s.pending))
  | .requestDrop => inferInstanceAs (Decidable (u ∈ s.assigned))
  | .approveDrop => inferInstanceAs (Decidable (u ∈ s.dropReqs))
  | .denyDrop => inferInstanceAs (Decidable (u ∈ s.dropReqs))

/-- Modelled from the spec: the RequestArbiter.  It checks the role gate,
then the membership-state precondition of the requested row, and on success
applies the row's resulting membership update; any action attempted from a
state not listed for it yields `invalidTransition`. -/
def arbiterApply (role : Role) (actor u : String) (a : Action) (s : ShiftState) :
    ArbiterResult :=
  match a with
  | .requestClaim =>
      if role = Role.employee ∧ actor = u then
        if u ∉ s.assigned ∧ u ∉ s.pending ∧ u ∉ s.dropReqs then
          .ok { s with pending := insert u s.pending }
        else .invalidTransition
      else .forbidden
  | .cancelClaim =>
      if role = Role.employee ∧ actor = u then
        if u ∈ s.pending then .ok { s with pending := s.pending.erase u }
        else .invalidTransition
      else .forbidden
  | .approveClaim =>
      if role = Role.manager then
        if u ∈ s.pending then
          .ok { s with pending := s.pending.erase u, assigned := insert u s.assigned }
        else .invalidTransition
      else .forbidden
  | .denyClaim =>
      if role = Role.manager then
        if u ∈ s.pending then .ok { s with pending := s.pending.erase u }
        else .invalidTransition
      else .forbidden
  | .requestDrop =>
      if role = Role.employee ∧ actor = u then
        if u ∈ s.assigned then
          .ok { s with assigned := s.assigned.erase u, dropReqs := insert u s.dropReqs }
        else .invalidTransition
      else .forbidden
  | .approveDrop =>
      if role = Role.manager then
        if u ∈ s.dropReqs then .ok { s with dropReqs := s.dropReqs.erase u }
        else .invalidTransition
      else .forbidden
  | .denyDrop =>
      if role = Role.manager then
        if u ∈ s.dropReqs then
          .ok { s with dropReqs := s.dropReqs.erase u, assigned := insert u s.assigned }
        else .invalidTransition
      else .forbidden

/-- Modelled from the spec: one ShiftStore mutation step.  On arbiter
success the new state is persisted and exactly one ChangeEvent (here the new
snapshot) is emitted to the hub; a validation error leaves the state
unchanged and emits nothing. -/
def storeStep (role : Role) (actor u : String) (a : Action) (s : ShiftState) :
    ShiftState × Option ShiftState :=
  match arbiterApply role actor u a s with
  | .ok s2 => (s2, some s2)
  | .invalidTransition => (s, none)
  | .forbidden => (s, none)

/-- Modelled from the spec: one arbitrated request against a shift. -/
structure Request where
  role : Role
  actor : String
  target : String
  act : Action

/-- Modelled from the spec: a sequence of requests applied through the
arbiter, rejected requests leaving the state unchanged. -/
def runRequests (reqs : List Request) (s : ShiftState) : ShiftState :=
  reqs.foldl (fun st r => (storeStep r.role r.actor r.target r.act st).1) s

/-- The spec's per-shift invariant: a user identifier appears in at most
one of the three membership sets. -/
def MembershipInv (s : ShiftState) : Prop :=
  (∀ v ∈ s.assigned, v ∉ s.pending ∧ v ∉ s.dropReqs) ∧
  (∀ v ∈ s.pending, v ∉ s.dropReqs)

instance (s : ShiftState) : Decidable (MembershipInv s) :=
  inferInstanceAs (Decidable ((∀ v ∈ s.assigned, v ∉ s.pending ∧ v ∉ s.dropReqs) ∧
    (∀ v ∈ s.pending, v ∉ s.dropReqs)))

/-- Modelled from the spec: the BroadcastHub's delivery of one ChangeEvent —
it is appended to the received stream of every registered channel. -/
def broadcast (ev : ChangeEvent) (hub : List (List ChangeEvent)) :
    List (List ChangeEvent) :=
  hub.map (fun c => c ++ [ev])

/-- Modelled from the spec: fan-out of a whole production sequence, event by
event in production order. -/
def broadcastAll (evs : List ChangeEvent) (hub : List (List ChangeEvent)) :
    List (List ChangeEvent) :=
  evs.foldl (fun h e => broadcast e h) hub

/-- C1 counterexample: applying the same `NEW_SHIFT` event twice to the
empty projection yields `[sh0, sh0]`, not `[sh0]` — the reducer appends
unconditionally, so `NEW_SHIFT` is not idempotent. -/
theorem newShift_not_idempotent :
    applyEvent (applyEvent [] (ChangeEvent.NEW_SHIFT sh0)) (ChangeEvent.NEW_SHIFT sh0) ≠
      applyEvent [] (ChangeEvent.NEW_SHIFT sh0) := by
  decide

/-- C1 (amended): applying the same `UPDATE_SHIFT` or `DELETE_SHIFT` event
twice to the projection yields the same state as applying it once;
`NEW_SHIFT` is excluded, since it appends the carried shift a second time. -/
theorem update_delete_idempotent (p : List Shift) (sh : Shift) (d : String) :
    applyEvent (applyEvent p (ChangeEvent.UPDATE_SHIFT sh)) (ChangeEvent.UPDATE_SHIFT sh) =
      applyEvent p (ChangeEvent.UPDATE_SHIFT sh) ∧
    applyEvent (applyEvent p (ChangeEvent.DELETE_SHIFT d)) (ChangeEvent.DELETE_SHIFT d) =
      applyEvent p (ChangeEvent.DELETE_SHIFT d) := by
  constructor
  · simp only [applyEvent, List.map_map]
    refine List.map_congr_left ?_
    intro s _
    by_cases h : s.id = sh.id <;> simp [h]
  · simp only [applyEvent]
    rw [List.filter_filter]
    refine List.filter_congr ?_
    intro s _
    by_cases h : s.id = some d <;> simp [h]

/-- C3 counterexample: `NEW_SHIFT` with an id already held creates a
duplicate entry instead of replacing, and `UPDATE_SHIFT` with an id not held
inserts nothing — the reducer is not an upsert by id in either direction. -/
theorem projection_not_upsert :
    applyEvent [sh0] (ChangeEvent.NEW_SHIFT sh0) = [sh0, sh0] ∧
    applyEvent [] (ChangeEvent.UPDATE_SHIFT sh0) = [] := by
  decide

/-- C3 (amended): `NEW_SHIFT` appends the carried shift unconditionally
(creating a duplicate when the id is already held); `UPDATE_SHIFT` preserves
the number of held shifts, replaces in place every held shift whose id
equals the event's shift's id, keeps every other held shift, and inserts
nothing when no held shift has that id. -/
theorem newShift_appends_update_replaces_in_place (p : List Shift) (sh : Shift) :
    applyEvent p (ChangeEvent.NEW_SHIFT sh) = p ++ [sh] ∧
    (applyEvent p (ChangeEvent.UPDATE_SHIFT sh)).length = p.length ∧
    (∀ s ∈ p, s.id = sh.id → sh ∈ applyEvent p (ChangeEvent.UPDATE_SHIFT sh)) ∧
    (∀ s ∈ p, s.id ≠ sh.id → s ∈ applyEvent p (ChangeEvent.UPDATE_SHIFT sh)) ∧
    ((∀ s ∈ p, s.id ≠ sh.id) → applyEvent p (ChangeEvent.UPDATE_SHIFT sh) = p) := by
  refine ⟨rfl, by simp [applyEvent], ?_, ?_, ?_⟩
  · intro s hs hid
    exact List.mem_map.mpr ⟨s, hs, by simp [hid]⟩
  · intro s hs hid
    exact List.mem_map.mpr ⟨s, hs, by simp [hid]⟩
  · intro hall
    simp only [applyEvent]
    rw [List.map_congr_left (g := id) (fun s hs => by simp [hall s hs]), List.map_id]

/-- Witness for the amended C3 theorem at concrete inputs. -/
theorem newShift_appends_update_replaces_in_place_witness :
    applyEvent [sh0] (ChangeEvent.NEW_SHIFT sh0) = [sh0] ++ [sh0] ∧
    sh0 ∈ applyEvent [sh0] (ChangeEvent.UPDATE_SHIFT sh0) ∧
    sh1 ∈ applyEvent [sh1] (ChangeEvent.UPDATE_SHIFT sh0) :=
  ⟨(newShift_appends_update_replaces_in_place [sh0] sh0).1,
   (newShift_appends_update_replaces_in_place [sh0] sh0).2.2.1 sh0 (by simp) rfl,
   (newShift_appends_update_replaces_in_place [sh1] sh0).2.2.2.1 sh1 (by simp) (by decide)⟩

/-- C5: applying `DELETE_SHIFT d` removes every held shift whose id equals
`d`; every held shift whose id differs from `d` remains held, and the
surviving shifts are a sublist of the previous state (each kept record
unchanged and in order). -/
theorem deleteShift_removes_by_id (p : List Shift) (d : String) :
    (∀ s ∈ applyEvent p (ChangeEvent.DELETE_SHIFT d), s.id ≠ some d) ∧
    (∀ s ∈ p, s.id ≠ some d → s ∈ applyEvent p (ChangeEvent.DELETE_SHIFT d)) ∧
    (applyEvent p (ChangeEvent.DELETE_SHIFT d)).Sublist p := by
  refine ⟨?_, ?_, ?_⟩
  · intro s hs
    exact of_decide_eq_true (List.mem_filter.mp hs).2
  · intro s hs hid
    exact List.mem_filter.mpr ⟨hs, decide_eq_true hid⟩
  · exact List.filter_sublist p

/-- Witness for the C5 theorem at concrete inputs. -/
theorem deleteShift_removes_by_id_witness :
    sh1.id ≠ some "s1" ∧ sh1 ∈ applyEvent [sh0, sh1] (ChangeEvent.DELETE_SHIFT "s1") :=
  ⟨by decide,
   (deleteShift_removes_by_id [sh0, sh1] "s1").2.1 sh1 (by simp) (by decide)⟩

/-- C10: applying `NEW_SHIFT` leaves every previously held shift unchanged
and in its existing relative order (the first `p.length` entries of the
result are exactly `p`), and appends exactly the event's shift after all
existing entries. -/
theorem newShift_frame (p : List Shift) (sh : Shift) :
    (applyEvent p (ChangeEvent.NEW_SHIFT sh)).take p.length = p ∧
    (applyEvent p (ChangeEvent.NEW_SHIFT sh)).drop p.length = [sh] := by
  exact ⟨List.take_left p [sh], List.drop_left p [sh]⟩

/-- C9: when a membership field is absent from a held shift record the
dashboard's membership check for that field evaluates (without error) to
false — the absent field behaves as the empty set — and when all three
fields are absent an employee is offered the request-claim action. -/
theorem absent_fields_treated_empty (sh : Shift) (u : String) :
    (sh.assigned_employees = none → isAssignedToMe sh u = false) ∧
    (sh.pending_employees = none → isPendingForMe sh u = false) ∧
    (sh.drop_requests = none → isDropRequested sh u = false) ∧
    (sh.assigned_employees = none → sh.pending_employees = none →
      sh.drop_requests = none → employeeButton sh u = EmployeeButton.requestShift) := by
  refine ⟨?_, ?_, ?_, ?_⟩
  · intro h; simp [isAssignedToMe, memberOf, h]
  · intro h; simp [isPendingForMe, memberOf, h]
  · intro h; simp [isDropRequested, memberOf, h]
  · intro ha hp hd
    simp [employeeButton, isDropRequested, isAssignedToMe, isPendingForMe, memberOf, ha, hp, hd]

/-- Witness for the C9 theorem: a concrete shift with all three membership
fields absent. -/
theorem absent_fields_treated_empty_witness :
    isAssignedToMe shNoFields "alice" = false ∧
    isPendingForMe shNoFields "alice" = false ∧
    isDropRequested shNoFields "alice" = false ∧
    employeeButton shNoFields "alice" = EmployeeButton.requestShift :=
  ⟨(absent_fields_treated_empty shNoFields "alice").1 rfl,
   (absent_fields_treated_empty shNoFields "alice").2.1 rfl,
   (absent_fields_treated_empty shNoFields "alice").2.2.1 rfl,
   (absent_fields_treated_empty shNoFields "alice").2.2.2 rfl rfl rfl⟩

/-- C7 counterexample: in the Dashboard `useEffect` the snapshot fetch is
issued strictly before the hub subscription is opened (so the client does
not subscribe first), and the snapshot handler overwrites the projection,
losing a `NEW_SHIFT` event applied before the snapshot response instead of
merging it. -/
theorem setup_fetches_before_subscribing :
    connectionSetup.indexOf SetupStep.fetchSnapshot <
      connectionSetup.indexOf SetupStep.subscribeHub ∧
    applySnapshot (applyEvent [] (ChangeEvent.NEW_SHIFT sh0)) [] = [] := by
  decide

/-- C7 (amended): at connection setup the client issues the snapshot fetch
first and opens the hub subscription only afterwards, and the snapshot
response replaces the projection wholesale, so a shift delivered by an event
racing the snapshot is lost (absent from the post-snapshot state) whenever
it is not contained in the snapshot. -/
theorem setup_order_and_snapshot_overwrite (prev snap : List Shift) (sh : Shift) :
    connectionSetup.indexOf SetupStep.fetchSnapshot <
      connectionSetup.indexOf SetupStep.subscribeHub ∧
    applySnapshot prev snap = snap ∧
    (sh ∉ snap → sh ∉ applySnapshot (applyEvent prev (ChangeEvent.NEW_SHIFT sh)) snap) := by
  exact ⟨by decide, rfl, fun h => h⟩

/-- Witness for the amended C7 theorem at concrete inputs. -/
theorem setup_order_and_snapshot_overwrite_witness :
    applySnapshot [] [sh1] = [sh1] ∧
    sh0 ∉ applySnapshot (applyEvent [] (ChangeEvent.NEW_SHIFT sh0)) [sh1] :=
  ⟨(setup_order_and_snapshot_overwrite [] [sh1] sh0).2.1,
   (setup_order_and_snapshot_overwrite [] [sh1] sh0).2.2 (by decide)⟩

theorem membershipInv_of_subsets (s t : ShiftState) (h : MembershipInv s)
    (hsa : t.assigned ⊆ s.assigned) (hsp : t.pending ⊆ s.pending)
    (hsd : t.dropReqs ⊆ s.dropReqs) : MembershipInv t := by
  obtain ⟨h1, h2⟩ := h
  refine ⟨fun v hv => ⟨fun hp => (h1 v (hsa hv)).1 (hsp hp),
                       fun hd => (h1 v (hsa hv)).2 (hsd hd)⟩,
          fun v hv hd => h2 v (hsp hv) (hsd hd)⟩

theorem membershipInv_requestClaim (s : ShiftState) (u : String) (h : MembershipInv s)
    (ha : u ∉ s.assigned) (hd : u ∉ s.dropReqs) :
    MembershipInv ⟨s.assigned, insert u s.pending, s.dropReqs⟩ := by
  obtain ⟨h1, h2⟩ := h
  refine ⟨fun v hv => ⟨fun hp => ?_, (h1 v hv).2⟩, fun v hv => ?_⟩
  · rcases Finset.mem_insert.mp hp with rfl | hp2
    · exact ha hv
    · exact (h1 v hv).1 hp2
  · rcases Finset.mem_insert.mp hv with rfl | hp2
    · exact hd
    · exact h2 v hp2

theorem membershipInv_approveClaim (s : ShiftState) (u : String) (h : MembershipInv s)
    (hu : u ∈ s.pending) :
    MembershipInv ⟨insert u s.assigned, s.pending.erase u, s.dropReqs⟩ := by
  obtain ⟨h1, h2⟩ := h
  have hua : u ∉ s.assigned := fun hc => (h1 u hc).1 hu
  refine ⟨fun v hv => ?_, fun v hv => h2 v (Finset.mem_of_mem_erase hv)⟩
  rcases Finset.mem_insert.mp hv with rfl | hv2
  · exact ⟨Finset.not_mem_erase v s.pending, h2 v hu⟩
  · exact ⟨fun hp => (h1 v hv2).1 (Finset.mem_of_mem_erase hp), (h1 v hv2).2⟩

theorem membershipInv_requestDrop (s : ShiftState) (u : String) (h : MembershipInv s)
    (hu : u ∈ s.assigned) :
    MembershipInv ⟨s.assigned.erase u, s.pending, insert u s.dropReqs⟩ := by
  obtain ⟨h1, h2⟩ := h
  refine ⟨fun v hv => ?_, fun v hv hd => ?_⟩
  · have hv2 := Finset.mem_of_mem_erase hv
    refine ⟨(h1 v hv2).1, fun hd => ?_⟩
    rcases Finset.mem_insert.mp hd with rfl | hd2
    · exact (Finset.not_mem_erase v s.assigned) hv
    · exact (h1 v hv2).2 hd2
  · rcases Finset.mem_insert.mp hd with rfl | hd2
    · exact (h1 v hu).1 hv
    · exact h2 v hv hd2

theorem membershipInv_denyDrop (s : ShiftState) (u : String) (h : MembershipInv s)
    (hu : u ∈ s.dropReqs) :
    MembershipInv ⟨insert u s.assigned, s.pending, s.dropReqs.erase u⟩ := by
  obtain ⟨h1, h2⟩ := h
  have hua : u ∉ s.assigned := fun hc => (h1 u hc).2 hu
  have hup : u ∉ s.pending := fun hc => h2 u hc hu
  refine ⟨fun v hv => ?_, fun v hv hd => h2 v hv (Finset.mem_of_mem_erase hd)⟩
  rcases Finset.mem_insert.mp hv with rfl | hv2
  · exact ⟨hup, Finset.not_mem_erase v s.dropReqs⟩
  · exact ⟨(h1 v hv2).1, fun hd => (h1 v hv2).2 (Finset.mem_of_mem_erase hd)⟩

theorem membershipInv_step (role : Role) (actor u : String) (a : Action) (s : ShiftState)
    (h : MembershipInv s) : MembershipInv (storeStep role actor u a s).1 := by
  cases a
  case requestClaim =>
    by_cases hr : role = Role.employee ∧ actor = u
    · by_cases hp : u ∉ s.assigned ∧ u ∉ s.pending ∧ u ∉ s.dropReqs
      · simp only [storeStep, arbiterApply, if_pos hr, if_pos hp]
        exact membershipInv_requestClaim s u h hp.1 hp.2.2
      · simp only [storeStep, arbiterApply, if_pos hr, if_neg hp]
        exact h
    · simp only [storeStep, arbiterApply, if_neg hr]
      exact h
  case cancelClaim =>
    by_cases hr : role = Role.employee ∧ actor = u
    · by_cases hp : u ∈ s.pending
      · simp only [storeStep, arbiterApply, if_pos hr, if_pos hp]
        exact membershipInv_of_subsets s _ h (fun _ hv => hv)
          (fun _ hv => Finset.mem_of_mem_erase hv) (fun _ hv => hv)
      · simp only [storeStep, arbiterApply, if_pos hr, if_neg hp]
        exact h
    · simp only [storeStep, arbiterApply, if_neg hr]
      exact h
  case approveClaim =>
    by_cases hr : role = Role.manager
    · by_cases hp : u ∈ s.pending
      · simp only [storeStep, arbiterApply, if_pos hr, if_pos hp]
        exact membershipInv_approveClaim s u h hp
      · simp only [storeStep, arbiterApply, if_pos hr, if_neg hp]
        exact h
    · simp only [storeStep, arbiterApply, if_neg hr]
      exact h
  case denyClaim =>
    by_cases hr : role = Role.manager
    · by_cases hp : u ∈ s.pending
      · simp only [storeStep, arbiterApply, if_pos hr, if_pos hp]
        exact membershipInv_of_subsets s _ h (fun _ hv => hv)
          (fun _ hv => Finset.mem_of_mem_erase hv) (fun _ hv => hv)
      · simp only [storeStep, arbiterApply, if_pos hr, if_neg hp]
        exact h
    · simp only [storeStep, arbiterApply, if_neg hr]
      exact h
  case requestDrop =>
    by_cases hr : role = Role.employee ∧ actor = u
    · by_cases hp : u ∈ s.assigned
      · simp only [storeStep, arbiterApply, if_pos hr, if_pos hp]
        exact membershipInv_requestDrop s u h hp
      · simp only [storeStep, arbiterApply, if_pos hr, if_neg hp]
        exact h
    · simp only [storeStep, arbiterApply, if_neg hr]
      exact h
  case approveDrop =>
    by_cases hr : role = Role.manager
    · by_cases hp : u ∈ s.dropReqs
      · simp only [storeStep, arbiterApply, if_pos hr, if_pos hp]
        exact membershipInv_of_subsets s _ h (fun _ hv => hv) (fun _ hv => hv)
          (fun _ hv => Finset.mem_of_mem_erase hv)
      · simp only [storeStep, arbiterApply, if_pos hr, if_neg hp]
        exact h
    · simp only [storeStep, arbiterApply, if_neg hr]
      exact h
  case denyDrop =>
    by_cases hr : role = Role.manager
    · by_cases hp : u ∈ s.dropReqs
      · simp only [storeStep, arbiterApply, if_pos hr, if_pos hp]
        exact membershipInv_denyDrop s u h hp
      · simp only [storeStep, arbiterApply, if_pos hr, if_neg hp]
        exact h
    · simp only [storeStep, arbiterApply, if_neg hr]
      exact h

/-- C2: from any state in which each user identifier is in at most one of
the three membership sets, every sequence of requests applied through the
RequestArbiter's transition table (invalid requests leaving the state
unchanged) keeps each user identifier in at most one of the three sets. -/
theorem arbiter_preserves_membership_inv (s0 : ShiftState) (h : MembershipInv s0)
    (reqs : List Request) : MembershipInv (runRequests reqs s0) := by
  induction reqs generalizing s0 with
  | nil => exact h
  | cons r rest ih =>
      exact ih _ (membershipInv_step r.role r.actor r.target r.act s0 h)

/-- Witness for the C2 theorem: the empty shift satisfies the invariant,
and a concrete request sequence is run through the arbiter from it. -/
theorem arbiter_preserves_membership_inv_witness :
    MembershipInv (ShiftState.mk ∅ ∅ ∅) ∧
    MembershipInv (runRequests
      [Request.mk Role.employee "alice" "alice" Action.requestClaim,
       Request.mk Role.manager "bob" "alice" Action.approveClaim,
       Request.mk Role.employee "alice" "alice" Action.requestDrop]
      (ShiftState.mk ∅ ∅ ∅)) :=
  ⟨by decide, arbiter_preserves_membership_inv (ShiftState.mk ∅ ∅ ∅) (by decide) _⟩

/-- C4: an action whose role gate passes but whose membership-state
precondition fails is answered with `InvalidTransition`, and the store step
leaves the membership sets unchanged and broadcasts no ChangeEvent. -/
theorem invalid_transition_rejected (role : Role) (actor u : String) (a : Action)
    (s : ShiftState) (hr : roleOk role actor u a) (hp : ¬ precond u a s) :
    arbiterApply role actor u a s = ArbiterResult.invalidTransition ∧
    storeStep role actor u a s = (s, none) := by
  have harb : arbiterApply role actor u a s = ArbiterResult.invalidTransition := by
    cases a <;>
      simp only [roleOk] at hr <;>
      simp only [precond] at hp <;>
      simp only [arbiterApply, if_pos hr, if_neg hp]
  exact ⟨harb, by simp only [storeStep, harb]⟩

/-- Witness for the C4 theorem: cancelling a claim that was never made. -/
theorem invalid_transition_rejected_witness :
    arbiterApply Role.employee "alice" "alice" Action.cancelClaim (ShiftState.mk ∅ ∅ ∅) =
      ArbiterResult.invalidTransition ∧
    storeStep Role.employee "alice" "alice" Action.cancelClaim (ShiftState.mk ∅ ∅ ∅) =
      (ShiftState.mk ∅ ∅ ∅, none) :=
  invalid_transition_rejected Role.employee "alice" "alice" Action.cancelClaim
    (ShiftState.mk ∅ ∅ ∅) (by decide) (by decide)

/-- C6: for a user assigned to a shift (and, per the invariant, not already
in the drop requests), request-drop moves the user from the assigned set to
the drop requests, and a subsequent deny-drop by a manager restores the
original membership sets exactly. -/
theorem request_drop_then_deny_restores (s : ShiftState) (u m : String)
    (hin : u ∈ s.assigned) (hnd : u ∉ s.dropReqs) :
    ∃ s1, arbiterApply Role.employee u u Action.requestDrop s = ArbiterResult.ok s1 ∧
      s1.assigned = s.assigned.erase u ∧
      s1.pending = s.pending ∧
      s1.dropReqs = insert u s.dropReqs ∧
      arbiterApply Role.manager m u Action.denyDrop s1 = ArbiterResult.ok s := by
  refine ⟨⟨s.assigned.erase u, s.pending, insert u s.dropReqs⟩, ?_, rfl, rfl, rfl, ?_⟩
  · simp [arbiterApply, hin]
  · have e1 : insert u (s.assigned.erase u) = s.assigned := Finset.insert_erase hin
    have e2 : (insert u s.dropReqs).erase u = s.dropReqs := Finset.erase_insert hnd
    simp only [arbiterApply, if_pos rfl,
      if_pos (Finset.mem_insert_self u s.dropReqs)]
    cases s
    simp_all

/-- Witness for the C6 theorem: "alice" assigned alone, manager "bob"
denies her drop request. -/
theorem request_drop_then_deny_restores_witness :
    ∃ s1, arbiterApply Role.employee "alice" "alice" Action.requestDrop
        (ShiftState.mk {"alice"} ∅ ∅) = ArbiterResult.ok s1 ∧
      s1.assigned = (ShiftState.mk {"alice"} ∅ ∅).assigned.erase "alice" ∧
      s1.pending = (ShiftState.mk {"alice"} ∅ ∅).pending ∧
      s1.dropReqs = insert "alice" (ShiftState.mk {"alice"} ∅ ∅).dropReqs ∧
      arbiterApply Role.manager "bob" "alice" Action.denyDrop s1 =
        ArbiterResult.ok (ShiftState.mk {"alice"} ∅ ∅) :=
  request_drop_then_deny_restores (ShiftState.mk {"alice"} ∅ ∅) "alice" "bob"
    (by decide) (by decide)

/-- C8: fanning out a production sequence extends every connected channel's
received stream by exactly that sequence, in production order — so the
events of any two mutations are observed by every client in commit order;
moreover each produced event is found at its production offset in the
delivered stream. -/
theorem hub_delivers_in_production_order (evs : List ChangeEvent)
    (hub : List (List ChangeEvent)) :
    broadcastAll evs hub = hub.map (fun c => c ++ evs) ∧
    ∀ c ∈ hub, ∀ i : Nat, (c ++ evs)[c.length + i]? = evs[i]? := by
  constructor
  · induction evs generalizing hub with
    | nil => simp [broadcastAll]
    | cons e rest ih =>
        have h1 : broadcastAll (e :: rest) hub = broadcastAll rest (broadcast e hub) := rfl
        rw [h1, ih (broadcast e hub)]
        simp only [broadcast, List.map_map]
        refine List.map_congr_left ?_
        intro c _
        simp
  · intro c _ i
    rw [List.getElem?_append_right (Nat.le_add_right c.length i)]
    congr 1
    omega

/-- Witness for the C8 theorem at a concrete production sequence and hub. -/
theorem hub_delivers_in_production_order_witness :
    broadcastAll [ChangeEvent.DELETE_SHIFT "s1"] [[]] =
      [[]].map (fun c => c ++ [ChangeEvent.DELETE_SHIFT "s1"]) ∧
    (([] : List ChangeEvent) ++ [ChangeEvent.DELETE_SHIFT "s1"])[([] : List ChangeEvent).length + 0]? =
      [ChangeEvent.DELETE_SHIFT "s1"][0]? :=
  ⟨(hub_delivers_in_production_order [ChangeEvent.DELETE_SHIFT "s1"] [[]]).1,
   (hub_delivers_in_production_order [ChangeEvent.DELETE_SHIFT "s1"] [[]]).2 []
     (by simp) 0⟩

end ShiftSync
